import Mathlib

/-!
# Verification of the mcproxy session/command RPC protocol layer

A shallow embedding of the protocol layer of the mcproxy repository:

* `CredentialStore.scrubCredentials` and `CredentialStore.get`
  (mcp-server/src/credential-store.ts);
* the client RPC stub's pending-request table
  (mcp-server/src/browser-client.ts);
* the WebSocket server's message handling, authentication gate and
  context-ownership tracking (browser-server/src/ws-server.ts);
* the session manager's create/close/sendCommand operations
  (mcp-server/src/session-manager.ts).

Pure computations are translated as Lean functions; stateful handlers are
translated as explicit state-passing functions, with inbound messages and
timer firings as events.  Effects that matter to the specification
(dispatches to the automation engine, replies sent on the wire, stub
disconnects) are returned as explicit values so that theorems can talk
about them.
-/

/-! ## JSON-like values

Command parameters and results travel as JSON objects (`unknown` in the
TypeScript source).  We embed them as a small inductive mirroring the JSON
value space; numbers are embedded as integers, which suffices for every
claim considered here. -/

inductive Json where
  | null : Json
  | bool (b : Bool) : Json
  | num (n : Int) : Json
  | str (s : String) : Json
  | arr (elems : List Json) : Json
  | obj (fields : List (String × Json)) : Json
deriving Repr

mutual

/-- Boolean equality on embedded JSON values. -/
def Json.beq : Json → Json → Bool
  | .null, .null => true
  | .bool a, .bool b => a == b
  | .num a, .num b => a == b
  | .str a, .str b => a == b
  | .arr xs, .arr ys => Json.beqList xs ys
  | .obj fs, .obj gs => Json.beqFields fs gs
  | _, _ => false

/-- Boolean equality on JSON arrays. -/
def Json.beqList : List Json → List Json → Bool
  | [], [] => true
  | x :: xs, y :: ys => Json.beq x y && Json.beqList xs ys
  | _, _ => false

/-- Boolean equality on JSON object field lists. -/
def Json.beqFields : List (String × Json) → List (String × Json) → Bool
  | [], [] => true
  | (k, v) :: fs, (k', v') :: gs => k == k' && Json.beq v v' && Json.beqFields fs gs
  | _, _ => false

end

mutual

theorem Json.beq_refl : ∀ a : Json, Json.beq a a = true
  | .null => rfl
  | .bool _ => by simp [Json.beq]
  | .num _ => by simp [Json.beq]
  | .str _ => by simp [Json.beq]
  | .arr xs => by simpa [Json.beq] using Json.beqList_refl xs
  | .obj fs => by simpa [Json.beq] using Json.beqFields_refl fs

theorem Json.beqList_refl : ∀ xs : List Json, Json.beqList xs xs = true
  | [] => rfl
  | x :: xs => by
      simp only [Json.beqList, Bool.and_eq_true]
      exact ⟨Json.beq_refl x, Json.beqList_refl xs⟩

theorem Json.beqFields_refl : ∀ fs : List (String × Json), Json.beqFields fs fs = true
  | [] => rfl
  | (k, v) :: fs => by
      simp only [Json.beqFields, Bool.and_eq_true, beq_self_eq_true, true_and]
      exact ⟨Json.beq_refl v, Json.beqFields_refl fs⟩

end

mutual

theorem Json.eq_of_beq : ∀ a b : Json, Json.beq a b = true → a = b
  | .null, .null, _ => rfl
  | .bool _, .bool _, h => by simpa [Json.beq] using h
  | .num _, .num _, h => by simpa [Json.beq] using h
  | .str _, .str _, h => by simpa [Json.beq] using h
  | .arr xs, .arr ys, h => by
      simp only [Json.beq] at h
      exact congrArg Json.arr (Json.eqList_of_beq xs ys h)
  | .obj fs, .obj gs, h => by
      simp only [Json.beq] at h
      exact congrArg Json.obj (Json.eqFields_of_beq fs gs h)
  | .null, .bool _, h | .null, .num _, h | .null, .str _, h
  | .null, .arr _, h | .null, .obj _, h
  | .bool _, .null, h | .bool _, .num _, h | .bool _, .str _, h
  | .bool _, .arr _, h | .bool _, .obj _, h
  | .num _, .null, h | .num _, .bool _, h | .num _, .str _, h
  | .num _, .arr _, h | .num _, .obj _, h
  | .str _, .null, h | .str _, .bool _, h | .str _, .num _, h
  | .str _, .arr _, h | .str _, .obj _, h
  | .arr _, .null, h | .arr _, .bool _, h | .arr _, .num _, h
  | .arr _, .str _, h | .arr _, .obj _, h
  | .obj _, .null, h | .obj _, .bool _, h | .obj _, .num _, h
  | .obj _, .str _, h | .obj _, .arr _, h => by simp [Json.beq] at h

theorem Json.eqList_of_beq : ∀ xs ys : List Json, Json.beqList xs ys = true → xs = ys
  | [], [], _ => rfl
  | x :: xs, y :: ys, h => by
      simp only [Json.beqList, Bool.and_eq_true] at h
      rw [Json.eq_of_beq x y h.1, Json.eqList_of_beq xs ys h.2]
  | [], _ :: _, h | _ :: _, [], h => by simp [Json.beqList] at h

theorem Json.eqFields_of_beq :
    ∀ fs gs : List (String × Json), Json.beqFields fs gs = true → fs = gs
  | [], [], _ => rfl
  | (k, v) :: fs, (k', v') :: gs, h => by
      simp only [Json.beqFields, Bool.and_eq_true] at h
      obtain ⟨⟨hk, hv⟩, hrest⟩ := h
      have hk' : k = k' := by simpa using hk
      rw [hk', Json.eq_of_beq v v' hv, Json.eqFields_of_beq fs gs hrest]
  | [], _ :: _, h | _ :: _, [], h => by simp [Json.beqFields] at h

end

instance : DecidableEq Json := fun a b =>
  decidable_of_iff (Json.beq a b = true)
    ⟨Json.eq_of_beq a b, fun h => h ▸ Json.beq_refl a⟩

/-- First-match association-list lookup, the semantics of reading a
property from a JavaScript object embedded as a field list. -/
def getVal (k : String) : List (String × Json) → Option Json
  | [] => none
  | (k', v) :: rest => if k' = k then some v else getVal k rest

/-- Field-presence test on an embedded JSON value, the semantics of the
JavaScript `in` operator under the source's guard
`typeof result === 'object'`: true only for an object that has the key. -/
def Json.hasField (v : Json) (k : String) : Bool :=
  match v with
  | .obj fields => fields.any (fun p => p.1 = k)
  | _ => false

/-- Property access on an embedded JSON object. -/
def Json.getField (v : Json) (k : String) : Option Json :=
  match v with
  | .obj fields => getVal k fields
  | _ => none

/-! ## Credential store (mcp-server/src/credential-store.ts)

The store draws credentials from two sources: process environment
variables named `MCPROXY_CREDENTIAL_<NAME>` and a credentials file.  Both
are embedded as association lists of strings.  Text is manipulated as
`List Char` so that all operations are directly executable. -/

/-- A named credential, as assembled by `scrubCredentials`. -/
structure Cred where
  name : String
  value : String
deriving DecidableEq, Repr

/-- The environment-variable prefix for credentials. -/
def credEnvPrefix : String := "MCPROXY_CREDENTIAL_"

/-- Normalizes a credential name into its environment-variable form: the
name is uppercased, every dash becomes an underscore, and the
`MCPROXY_CREDENTIAL_` prefix is prepended (`toEnvVarName`). -/
def toEnvVarName (name : String) : String :=
  String.mk (credEnvPrefix.data ++
    name.data.map (fun c => if c.toUpper = '-' then '_' else c.toUpper))

/-- The reverse direction used when listing/scrubbing: the prefix is
stripped, the rest lowercased, and underscores become dashes. -/
def fromEnvVarName (key : String) : String :=
  String.mk ((key.data.drop credEnvPrefix.length).map
    (fun c => if c.toLower = '_' then '-' else c.toLower))

/-- Lookup of a credential by name (`CredentialStore.get`): the
environment variable (under the normalized name) is consulted first; only
when it is absent is the file store consulted, under the *literal* name. -/
def credGet (env fileCreds : List (String × String)) (name : String) : Option String :=
  match getStr (toEnvVarName name) env with
  | some v => some v
  | none => getStr name fileCreds
where
  /-- First-match lookup in a string association list. -/
  getStr (k : String) : List (String × String) → Option String
    | [] => none
    | (k', v) :: rest => if k' = k then some v else getStr k rest

/-- Global literal replacement, the semantics of JavaScript's
`String.replace` with a global regex of the escaped needle: scan left to
right, replace each non-overlapping occurrence of `needle`, continuing
after the end of each match.  The `skip` counter carries how many input
characters of the current match remain to be consumed, which makes the
recursion structural on the text.  (Dollar-escape sequences in the
replacement string are not modeled; the replacements built by the source
are `[CREDENTIAL:name]` placeholders.) -/
def replaceAllAux (needle repl : List Char) : Nat → List Char → List Char
  | _, [] => []
  | skip + 1, _ :: cs => replaceAllAux needle repl skip cs
  | 0, c :: cs =>
    if !needle.isEmpty && needle.isPrefixOf (c :: cs) then
      repl ++ replaceAllAux needle repl (needle.length - 1) cs
    else
      c :: replaceAllAux needle repl 0 cs

/-- Replace every occurrence of `needle` in the text by `repl`. -/
def replaceAll (needle repl text : List Char) : List Char :=
  replaceAllAux needle repl 0 text

/-- Stable insertion of a credential into a list sorted by value length,
descending: the new element goes before the first strictly shorter value,
after any tie.  Extensionally this is the stable sort
`sort((a, b) => b.value.length - a.value.length)` used by the source. -/
def insertByLen (c : Cred) : List Cred → List Cred
  | [] => [c]
  | d :: ds =>
    if d.value.length < c.value.length then c :: d :: ds
    else d :: insertByLen c ds

/-- Stable sort by value length, descending (`credentialsToScrub.sort`). -/
def sortByLenDesc : List Cred → List Cred
  | [] => []
  | c :: cs => insertByLen c (sortByLenDesc cs)

/-- The credential list `scrubCredentials` assembles: environment
credentials (keys with the prefix and a truthy value) under their
display names, followed by the file credentials. -/
def credsToScrub (env fileCreds : List (String × String)) : List Cred :=
  ((env.filter (fun kv => credEnvPrefix.data.isPrefixOf kv.1.data && kv.2 != "")).map
      (fun kv => Cred.mk (fromEnvVarName kv.1) kv.2))
    ++ fileCreds.map (fun kv => Cred.mk kv.1 kv.2)

/-- `CredentialStore.scrubCredentials`: sort all known credentials by value
length descending, then globally replace each value of length ≥ 4 by its
`[CREDENTIAL:name]` placeholder, longest value first. -/
def scrubCredentials (env fileCreds : List (String × String)) (text : List Char) :
    List Char :=
  (sortByLenDesc (credsToScrub env fileCreds)).foldl
    (fun res c =>
      if 4 ≤ c.value.length then
        replaceAll c.value.toList ("[CREDENTIAL:" ++ c.name ++ "]").toList res
      else res)
    text

/-! ## Client RPC stub: pending requests (mcp-server/src/browser-client.ts)

`BrowserClient.sendCommand` registers a `PendingRequest` (with a one-shot
timeout) under a fresh correlation id; `handleMessage` settles the matching
pending request on a `response`/`error` frame, first clearing its timeout;
the timeout callback deletes the pending request and rejects; `cleanup`
(on channel close or error) clears every timeout and rejects every pending
request.  Each client's handlers run on a single-threaded event stream, so
we model the client as a state stepped by one event at a time.  Settlement
of a caller's promise is recorded in an explicit log so that theorems can
count how often one call was settled. -/

/-- How a pending call was settled. -/
inductive Settled where
  | replied (ok : Bool) : Settled
  | timedOut : Settled
  | connClosed : Settled
deriving DecidableEq, Repr

/-- Events driving one client's event stream: `register` is the body of
`sendCommand` (install timeout, store the pending request, send the
frame); `reply` is an inbound `response` (ok) or `error` (not ok) frame;
`timerFire` is the command timeout firing; `close` is the channel's
close/error event triggering `cleanup`. -/
inductive BCEvent where
  | register (id : String) : BCEvent
  | reply (id : String) (ok : Bool) : BCEvent
  | timerFire (id : String) : BCEvent
  | close : BCEvent
deriving DecidableEq, Repr

/-- The client state: ids with a stored `PendingRequest`, ids whose timeout
is still armed, and the log of settlements performed so far. -/
structure BCState where
  pending : List String
  timers : List String
  settled : List (String × Settled)
deriving DecidableEq, Repr

/-- A freshly connected client: nothing pending, nothing settled. -/
def BCState.init : BCState := ⟨[], [], []⟩

/-- One step of the client's event stream.  A `reply` whose id has no
pending request is dropped; a timeout that was already cleared
(`clearTimeout` in `handleMessage` or `cleanup`) cannot fire. -/
def bcStep (s : BCState) : BCEvent → BCState
  | .register id =>
    { s with pending := id :: s.pending, timers := id :: s.timers }
  | .reply id ok =>
    if id ∈ s.pending then
      { pending := s.pending.erase id
        timers := s.timers.erase id
        settled := s.settled ++ [(id, .replied ok)] }
    else s
  | .timerFire id =>
    if id ∈ s.timers then
      { pending := s.pending.erase id
        timers := s.timers.erase id
        settled := s.settled ++ [(id, .timedOut)] }
    else s
  | .close =>
    { pending := []
      timers := []
      settled := s.settled ++ s.pending.map (fun id => (id, .connClosed)) }

/-- Run the client from a state through a list of events. -/
def bcRun (s : BCState) (tr : List BCEvent) : BCState :=
  tr.foldl bcStep s

/-- How many times the trace registers a given correlation id. -/
def countRegister (tr : List BCEvent) (id : String) : Nat :=
  tr.countP (fun e => e == .register id)

/-- How many settlements the state has logged for a given id. -/
def BCState.settledCount (s : BCState) (id : String) : Nat :=
  s.settled.countP (fun p => p.1 == id)

/-! ## Connection gate (browser-server/src/ws-server.ts)

The WebSocket server keeps one `AuthenticatedClient` record per
connection: an `authenticated` flag and the set of context ids created
through that connection.  Inbound frames parse into one of three client
message shapes; replies are server message shapes.  The command handler
collaborator is passed in as a function from command name and params to a
result or a thrown error (`Except`). -/

/-- First-match lookup in an association list keyed by strings, the
semantics of `Map.get`. -/
def assocGet {α : Type} (k : String) : List (String × α) → Option α
  | [] => none
  | (k', v) :: rest => if k' = k then some v else assocGet k rest

/-- `Map.set` / object-spread update: replace the value under the key in
place when present, append otherwise. -/
def assocSet {α : Type} (k : String) (v : α) (l : List (String × α)) :
    List (String × α) :=
  if (l.map Prod.fst).contains k then
    l.map (fun p => if p.1 = k then (k, v) else p)
  else l ++ [(k, v)]

/-- `Map.delete`: drop the entry under the key. -/
def assocDel {α : Type} (k : String) (l : List (String × α)) : List (String × α) :=
  l.filter (fun p => decide (p.1 ≠ k))

/-- Client-to-server message shapes (`ClientMessage`). -/
inductive ClientMsg where
  | auth (token : String) : ClientMsg
  | command (id : String) (command : String) (params : Json) : ClientMsg
  | ping : ClientMsg
deriving DecidableEq, Repr

/-- Server-to-client message shapes (`ServerMessage`). -/
inductive ServerMsg where
  | authResult (success : Bool) (error : Option String) : ServerMsg
  | response (id : String) (result : Json) : ServerMsg
  | error (id : String) (code : String) (message : String) : ServerMsg
  | pong : ServerMsg
deriving DecidableEq, Repr

/-- The correlation id carried by a reply, when it has one. -/
def ServerMsg.msgId : ServerMsg → Option String
  | .response id _ => some id
  | .error id _ _ => some id
  | _ => none

/-- Distinguished close initiated by the server (`ws.close(4003, ...)`). -/
inductive CloseReason where
  | authFailed : CloseReason
deriving DecidableEq, Repr

/-- Per-connection state (`AuthenticatedClient`): the `authenticated` flag
and the context ids owned by the connection.  The source stores the ids in
a `Set<string>`; we keep the underlying JSON value of the tracked field in
insertion order without duplicates. -/
structure ClientConn where
  authenticated : Bool
  contextIds : List Json
deriving DecidableEq, Repr

/-- A freshly accepted connection: unauthenticated, owning nothing. -/
def ClientConn.init : ClientConn := ⟨false, []⟩

/-- Set insertion (`Set.add`): append when absent. -/
def setAdd (l : List Json) (x : Json) : List Json :=
  if x ∈ l then l else l ++ [x]

/-- Set removal (`Set.delete`). -/
def setRemove (l : List Json) (x : Json) : List Json :=
  l.filter (fun y => decide (y ≠ x))

/-- The ownership bookkeeping inside `handleCommand`, applied to the
result of a *successful* dispatch: a `create_context` whose result object
has a `contextId` field adds that id; a `close_context` whose params
object has a `contextId` field removes it; nothing else changes the owned
set. -/
def trackContextOwnership (contextIds : List Json) (command : String)
    (params result : Json) : List Json :=
  if command = "create_context" then
    match result.getField "contextId" with
    | some cid => setAdd contextIds cid
    | none => contextIds
  else if command = "close_context" then
    match params.getField "contextId" with
    | some cid => setRemove contextIds cid
    | none => contextIds
  else contextIds

/-- `BrowserWebSocketServer.handleCommand`: dispatch to the command
handler; on success update ownership and send a `response` carrying the
command's id; on a thrown error send an `error` reply with code
`COMMAND_FAILED`, also carrying the command's id, leaving the client
record untouched. -/
def wsHandleCommand (client : ClientConn) (id command : String) (params : Json)
    (dispatch : String → Json → Except String Json) : ClientConn × ServerMsg :=
  match dispatch command params with
  | .ok result =>
    ({ client with
        contextIds := trackContextOwnership client.contextIds command params result },
      .response id result)
  | .error msg => (client, .error id "COMMAND_FAILED" msg)

/-- `BrowserWebSocketServer.handleMessage`: auth frames are checked
against the configured token; pings get pongs regardless of
authentication; every other frame on an unauthenticated connection gets
an error with code `NOT_AUTHENTICATED` and is not dispatched; commands on
an authenticated connection go to `wsHandleCommand`. -/
def wsHandleMessage (authToken : String) (client : ClientConn) (msg : ClientMsg)
    (dispatch : String → Json → Except String Json) :
    ClientConn × List ServerMsg × Option CloseReason :=
  match msg with
  | .auth token =>
    if token = authToken then
      ({ client with authenticated := true }, [.authResult true none], none)
    else
      (client, [.authResult false (some "Invalid token")], some .authFailed)
  | .ping => (client, [.pong], none)
  | .command id command params =>
    if client.authenticated then
      let r := wsHandleCommand client id command params dispatch
      (r.1, [r.2], none)
    else
      (client, [.error "unknown" "NOT_AUTHENTICATED" "Must authenticate first"], none)

/-- The `message` listener: a frame that fails to parse (`none`) is
answered with a `PARSE_ERROR` error carrying the placeholder id
`"unknown"`; a parsed frame goes to `wsHandleMessage`. -/
def wsOnMessage (authToken : String) (client : ClientConn) (frame : Option ClientMsg)
    (dispatch : String → Json → Except String Json) :
    ClientConn × List ServerMsg × Option CloseReason :=
  match frame with
  | some msg => wsHandleMessage authToken client msg dispatch
  | none => (client, [.error "unknown" "PARSE_ERROR" "Failed to parse message"], none)

/-- One best-effort cleanup dispatch issued by the `close` listener:
command name, params, and the outcome the command handler produced for it
(failures are caught and logged, never propagated). -/
structure CleanupDispatch where
  command : String
  params : Json
  outcome : Except String Json

/-- The `close` listener: for every context id still owned by the closing
connection, issue `close_context` to the command handler (continuing past
per-id failures), then delete the connection record from the client map. -/
def wsOnClose (clients : List (String × ClientConn)) (ch : String)
    (dispatch : String → Json → Except String Json) :
    List (String × ClientConn) × List CleanupDispatch :=
  let log :=
    match assocGet ch clients with
    | some client =>
      client.contextIds.map (fun cid =>
        let params := Json.obj [("contextId", cid)]
        CleanupDispatch.mk "close_context" params (dispatch "close_context" params))
    | none => []
  (assocDel ch clients, log)

/-! ## Session manager (mcp-server/src/session-manager.ts)

The session registry maps fresh session ids to session records.  The
underlying stub's `connect()` and the remote `create_context` /
`close_context` calls are collaborators; their outcomes enter the model
as `Except` parameters, and the effects the manager performs on them
(registration, dispatch, disconnect) come out as explicit values.  The
fresh uuid and the clock reading are parameters as well. -/

/-- What `create_context` returns (`CreateContextResult`): the remote
context id, the browser type, and the location payload. -/
structure CreateCtxResult where
  contextId : String
  browserType : String
  location : Json
deriving DecidableEq, Repr

/-- A registered session (the `Session` record). -/
structure SessionRec where
  sessionId : String
  endpoint : String
  contextId : String
  browserType : String
  createdAt : Nat
  location : Json
deriving DecidableEq, Repr

/-- The registry state: the session map. -/
structure SMState where
  sessions : List (String × SessionRec)
deriving DecidableEq, Repr

/-- `SessionManager.createSession`: connect the stub, then create the
remote context; the session is registered only after both succeed, and
a failure of either step is returned as-is with the map untouched. -/
def smCreateSession (st : SMState) (sessionId endpoint : String) (now : Nat)
    (connectResult : Except String Unit)
    (createResult : Except String CreateCtxResult) :
    SMState × Except String (String × String × String × Json) :=
  match connectResult with
  | .error e => (st, .error e)
  | .ok _ =>
    match createResult with
    | .error e => (st, .error e)
    | .ok r =>
      let session : SessionRec :=
        ⟨sessionId, endpoint, r.contextId, r.browserType, now, r.location⟩
      ({ sessions := assocSet sessionId session st.sessions },
        .ok (sessionId, endpoint, r.browserType, r.location))

/-- Everything `closeSession` does: the resulting registry, the
returned/raised outcome, the best-effort `close_context` dispatch it
issued (if any), and whether it disconnected the stub. -/
structure CloseSessionOutcome where
  state : SMState
  result : Except String Unit
  closeDispatch : Option (String × Json)
  disconnected : Bool
deriving Repr

/-- `SessionManager.closeSession`: unknown ids fail; otherwise the
`close_context` command is issued best-effort (its outcome
`closeCtxResult` is swallowed by the try/catch either way), and the stub
is disconnected and the session removed unconditionally. -/
def smCloseSession (st : SMState) (sid : String)
    (closeCtxResult : Except String Json) : CloseSessionOutcome :=
  match assocGet sid st.sessions with
  | none => ⟨st, .error ("Session " ++ sid ++ " not found"), none, false⟩
  | some s =>
    ⟨⟨assocDel sid st.sessions⟩, .ok (),
      some ("close_context", Json.obj [("contextId", Json.str s.contextId)]), true⟩

/-- `SessionManager.sendCommand`, up to the wire: unknown ids fail;
otherwise the session's own context id is spread over the caller's
params (`{ ...params, contextId: session.contextId }`) and the command
is forwarded with the resulting params. -/
def smSendCommand (st : SMState) (sid command : String)
    (params : List (String × Json)) :
    Except String (String × List (String × Json)) :=
  match assocGet sid st.sessions with
  | none => .error ("Session " ++ sid ++ " not found")
  | some s => .ok (command, assocSet "contextId" (Json.str s.contextId) params)

/-! ## Supporting lemmas and claim theorems -/

/-- Membership in an insertion is membership in the inserted element or the
original list. -/
theorem mem_insertByLen {x c : Cred} {l : List Cred} :
    x ∈ insertByLen c l ↔ x = c ∨ x ∈ l := by
  induction l with
  | nil => simp [insertByLen]
  | cons d ds ih =>
    by_cases h : d.value.length < c.value.length
    · simp [insertByLen, h]
    · simp [insertByLen, h, ih]
      tauto

/-- Insertion preserves the sortedness of the credential list by value
length, descending. -/
theorem pairwise_insertByLen {c : Cred} {l : List Cred}
    (hl : l.Pairwise (fun a b => b.value.length ≤ a.value.length)) :
    (insertByLen c l).Pairwise (fun a b => b.value.length ≤ a.value.length) := by
  induction l with
  | nil => simp [insertByLen]
  | cons d ds ih =>
    rw [List.pairwise_cons] at hl
    by_cases h : d.value.length < c.value.length
    · rw [insertByLen, if_pos h, List.pairwise_cons]
      refine ⟨?_, List.pairwise_cons.mpr hl⟩
      intro x hx
      rcases List.mem_cons.mp hx with rfl | hx
      · omega
      · have := hl.1 x hx
        omega
    · rw [insertByLen, if_neg h, List.pairwise_cons]
      refine ⟨?_, ih hl.2⟩
      intro x hx
      rcases mem_insertByLen.mp hx with rfl | hx
      · omega
      · exact hl.1 x hx

/-- The sort used by `scrubCredentials` really orders credentials by value
length, descending. -/
theorem pairwise_sortByLenDesc (l : List Cred) :
    (sortByLenDesc l).Pairwise (fun a b => b.value.length ≤ a.value.length) := by
  induction l with
  | nil => simp [sortByLenDesc]
  | cons c cs ih => exact pairwise_insertByLen ih

/-- The bookkeeping invariant of the pending-request table: for every id,
armed timers and pending requests agree, and pending requests plus logged
settlements account exactly for the registrations consumed so far. -/
theorem bcStep_preserves (s : BCState) (e : BCEvent) (id : String)
    (htp : s.timers.count id = s.pending.count id) :
    (bcStep s e).timers.count id = (bcStep s e).pending.count id ∧
    (bcStep s e).pending.count id + (bcStep s e).settledCount id =
      s.pending.count id + s.settledCount id +
        countRegister [e] id := by
  cases e with
  | register id' =>
    simp only [bcStep, countRegister, BCState.settledCount, List.countP_cons,
      List.countP_nil, List.count_cons]
    by_cases h : id' = id <;> simp [h, htp] <;> omega
  | reply id' ok =>
    simp only [bcStep]
    by_cases hmem : id' ∈ s.pending
    · rw [if_pos hmem]
      have hpos : 0 < s.pending.count id' := List.count_pos_iff.mpr hmem
      by_cases h : id' = id
      · subst h
        simp only [BCState.settledCount, countRegister, List.countP_append,
          List.countP_cons, List.countP_nil, List.count_erase_self]
        simp only [beq_self_eq_true, if_true]
        constructor
        · rw [htp]
        · simp
          omega
      · have h' : id ≠ id' := fun hh => h hh.symm
        simp only [BCState.settledCount, countRegister, List.countP_append,
          List.countP_cons, List.countP_nil, List.count_erase_of_ne h']
        have hbeq : (id' == id) = false := beq_false_of_ne (fun hh => h hh)
        simp [hbeq, htp]
    · rw [if_neg hmem]
      refine ⟨htp, ?_⟩
      simp [countRegister]
  | timerFire id' =>
    simp only [bcStep]
    by_cases hmem : id' ∈ s.timers
    · rw [if_pos hmem]
      have hpos : 0 < s.timers.count id' := List.count_pos_iff.mpr hmem
      by_cases h : id' = id
      · subst h
        have hppos : 0 < s.pending.count id' := by rw [← htp]; exact hpos
        simp only [BCState.settledCount, countRegister, List.countP_append,
          List.countP_cons, List.countP_nil, List.count_erase_self]
        constructor
        · rw [htp]
        · simp
          omega
      · have h' : id ≠ id' := fun hh => h hh.symm
        have hbeq : (id' == id) = false := beq_false_of_ne (fun hh => h hh)
        simp only [BCState.settledCount, countRegister, List.countP_append,
          List.countP_cons, List.countP_nil, List.count_erase_of_ne h']
        simp [hbeq, htp]
    · rw [if_neg hmem]
      refine ⟨htp, ?_⟩
      simp [countRegister]
  | close =>
    constructor
    · simp [bcStep]
    · have hco : (BCEvent.close == BCEvent.register id) = false := rfl
      simp only [bcStep, BCState.settledCount, countRegister, List.countP_append,
        List.countP_map, List.count_nil, List.countP_cons, List.countP_nil, hco,
        Bool.false_eq_true, if_false]
      have hmap : (List.countP ((fun p => p.1 == id) ∘ fun i => (i, Settled.connClosed))
          s.pending) = List.countP (fun i => i == id) s.pending := by
        apply List.countP_congr
        intro x _
        rfl
      rw [hmap]
      simp only [List.count]
      omega

/-- The invariant of `bcStep_preserves`, carried along a whole trace. -/
theorem bcRun_invariant (tr : List BCEvent) (s : BCState) (id : String)
    (htp : s.timers.count id = s.pending.count id) :
    (bcRun s tr).timers.count id = (bcRun s tr).pending.count id ∧
    (bcRun s tr).pending.count id + (bcRun s tr).settledCount id =
      s.pending.count id + s.settledCount id + countRegister tr id := by
  induction tr generalizing s with
  | nil =>
    simpa [bcRun, countRegister] using htp
  | cons e es ih =>
    have hstep := bcStep_preserves s e id htp
    have hrest := ih (bcStep s e) hstep.1
    have hrun : bcRun s (e :: es) = bcRun (bcStep s e) es := rfl
    rw [hrun]
    refine ⟨hrest.1, ?_⟩
    have hcnt : countRegister (e :: es) id =
        countRegister [e] id + countRegister es id := by
      simp [countRegister, List.countP_cons]
      omega
    omega

/-- C2: an in-flight command's pending call is settled at most once; when
the id was registered, either the call is still pending (and unsettled) or
it has been settled exactly once, by a reply, a timeout, or channel
cleanup — never twice; and a reply for an id with no pending call (e.g.
after its timeout already removed it) leaves the client state completely
unchanged, settling nothing. -/
theorem pendingCall_settled_once (tr : List BCEvent) (id : String)
    (h : countRegister tr id ≤ 1) :
    ((bcRun BCState.init tr).settledCount id ≤ 1)
    ∧ (countRegister tr id = 1 →
        ((bcRun BCState.init tr).pending.count id = 1
            ∧ (bcRun BCState.init tr).settledCount id = 0)
        ∨ ((bcRun BCState.init tr).pending.count id = 0
            ∧ (bcRun BCState.init tr).settledCount id = 1))
    ∧ (∀ (s : BCState) (ok : Bool), id ∉ s.pending → bcStep s (.reply id ok) = s) := by
  have hinv := bcRun_invariant tr BCState.init id (by simp [BCState.init])
  have hzero : BCState.init.pending.count id = 0 ∧ BCState.init.settledCount id = 0 := by
    constructor <;> simp [BCState.init, BCState.settledCount]
  refine ⟨by omega, by omega, ?_⟩
  intro s ok hmem
  simp [bcStep, hmem]

/-- Witness for C2 at a concrete trace: id `a` is registered once, its
timeout fires, and a late reply then arrives; the call ends up settled
exactly once. -/
theorem pendingCall_settled_once_witness :
    countRegister [BCEvent.register "a", BCEvent.timerFire "a",
        BCEvent.reply "a" true] "a" ≤ 1
    ∧ (((bcRun BCState.init [BCEvent.register "a", BCEvent.timerFire "a",
          BCEvent.reply "a" true]).settledCount "a" ≤ 1)
      ∧ (countRegister [BCEvent.register "a", BCEvent.timerFire "a",
            BCEvent.reply "a" true] "a" = 1 →
          ((bcRun BCState.init [BCEvent.register "a", BCEvent.timerFire "a",
              BCEvent.reply "a" true]).pending.count "a" = 1
              ∧ (bcRun BCState.init [BCEvent.register "a", BCEvent.timerFire "a",
                  BCEvent.reply "a" true]).settledCount "a" = 0)
          ∨ ((bcRun BCState.init [BCEvent.register "a", BCEvent.timerFire "a",
              BCEvent.reply "a" true]).pending.count "a" = 0
              ∧ (bcRun BCState.init [BCEvent.register "a", BCEvent.timerFire "a",
                  BCEvent.reply "a" true]).settledCount "a" = 1))
      ∧ (∀ (s : BCState) (ok : Bool), "a" ∉ s.pending →
          bcStep s (.reply "a" ok) = s)) :=
  ⟨by decide, pendingCall_settled_once
    [BCEvent.register "a", BCEvent.timerFire "a", BCEvent.reply "a" true] "a"
    (by decide)⟩

/-- Updating every entry under `k` changes exactly the value found under
`k`. -/
theorem assocGet_map_update {α : Type} (k : String) (v : α) (l : List (String × α)) :
    assocGet k (l.map (fun p => if p.1 = k then (k, v) else p)) =
      (assocGet k l).map (fun _ => v) := by
  induction l with
  | nil => rfl
  | cons p rest ih =>
    obtain ⟨a, b⟩ := p
    simp only [List.map_cons]
    by_cases h : a = k
    · subst h
      rw [if_pos rfl]
      simp [assocGet]
    · rw [if_neg (by simpa using h)]
      simp only [assocGet, if_neg h, ih]

/-- Updating entries under `k` leaves lookups of other keys unchanged. -/
theorem assocGet_map_update_ne {α : Type} {k k' : String} (v : α)
    (l : List (String × α)) (hne : k' ≠ k) :
    assocGet k' (l.map (fun p => if p.1 = k then (k, v) else p)) = assocGet k' l := by
  induction l with
  | nil => rfl
  | cons p rest ih =>
    obtain ⟨a, b⟩ := p
    simp only [List.map_cons]
    by_cases h : a = k
    · subst h
      rw [if_pos rfl]
      simp only [assocGet, if_neg (fun hh : a = k' => hne hh.symm), ih]
    · rw [if_neg (by simpa using h)]
      by_cases h' : a = k'
      · simp only [assocGet, if_pos h']
      · simp only [assocGet, if_neg h', ih]

/-- Lookup distributes over append, preferring the left list. -/
theorem assocGet_append {α : Type} (k : String) (l₁ l₂ : List (String × α)) :
    assocGet k (l₁ ++ l₂) =
      match assocGet k l₁ with
      | some v => some v
      | none => assocGet k l₂ := by
  induction l₁ with
  | nil => rfl
  | cons p rest ih =>
    obtain ⟨a, b⟩ := p
    by_cases h : a = k <;> simp [assocGet, h, ih]

/-- A key is listed among the firsts exactly when lookup finds it. -/
theorem contains_iff_assocGet_isSome {α : Type} (k : String) (l : List (String × α)) :
    (l.map Prod.fst).contains k = (assocGet k l).isSome := by
  induction l with
  | nil => rfl
  | cons p rest ih =>
    obtain ⟨a, b⟩ := p
    by_cases h : a = k
    · simp [assocGet, h]
    · simp only [List.map_cons, List.contains_cons, assocGet, if_neg h, ih]
      have : (k == a) = false := beq_false_of_ne (fun hh => h hh.symm)
      simp [this]

/-- Lookup after a set finds the new value. -/
theorem assocGet_assocSet_self {α : Type} (k : String) (v : α) (l : List (String × α)) :
    assocGet k (assocSet k v l) = some v := by
  unfold assocSet
  by_cases hc : (l.map Prod.fst).contains k = true
  · rw [if_pos hc, assocGet_map_update]
    rw [contains_iff_assocGet_isSome] at hc
    obtain ⟨w, hw⟩ := Option.isSome_iff_exists.mp hc
    simp [hw]
  · rw [if_neg hc, assocGet_append]
    rw [contains_iff_assocGet_isSome] at hc
    have : assocGet k l = none := by
      cases hg : assocGet k l with
      | none => rfl
      | some w => rw [hg] at hc; simp at hc
    simp [this, assocGet]

/-- Lookup of a different key is unaffected by a set. -/
theorem assocGet_assocSet_ne {α : Type} {k k' : String} (v : α)
    (l : List (String × α)) (hne : k' ≠ k) :
    assocGet k' (assocSet k v l) = assocGet k' l := by
  unfold assocSet
  by_cases hc : (l.map Prod.fst).contains k = true
  · rw [if_pos hc, assocGet_map_update_ne v l hne]
  · rw [if_neg hc, assocGet_append]
    cases hg : assocGet k' l with
    | some w => simp
    | none => simp only [assocGet, if_neg (fun hh : k = k' => hne hh.symm)]

/-- Lookup after a delete of the same key fails. -/
theorem assocGet_assocDel_self {α : Type} (k : String) (l : List (String × α)) :
    assocGet k (assocDel k l) = none := by
  induction l with
  | nil => rfl
  | cons p rest ih =>
    obtain ⟨a, b⟩ := p
    by_cases h : a = k
    · simpa [assocDel, h] using ih
    · simpa [assocDel, assocGet, h] using ih

/-- C1: `scrubCredentials` performs its replacements longest value first —
for every environment and file store, the credential list it folds over is
sorted by value length, descending — and on the spec's example, with `api`
mapping to `abc123` and `apikey` to `abc123xyz` (in either store order,
and also with one credential coming from the environment), scrubbing
`token=abc123xyz` yields `token=[CREDENTIAL:apikey]` rather than a partial
`[CREDENTIAL:api]xyz`. -/
theorem scrubCredentials_longest_first :
    (∀ env fileCreds : List (String × String),
      (sortByLenDesc (credsToScrub env fileCreds)).Pairwise
        (fun a b => b.value.length ≤ a.value.length))
    ∧ scrubCredentials [] [("api", "abc123"), ("apikey", "abc123xyz")]
        "token=abc123xyz".toList = "token=[CREDENTIAL:apikey]".toList
    ∧ scrubCredentials [] [("apikey", "abc123xyz"), ("api", "abc123")]
        "token=abc123xyz".toList = "token=[CREDENTIAL:apikey]".toList
    ∧ scrubCredentials [("MCPROXY_CREDENTIAL_API", "abc123")]
        [("apikey", "abc123xyz")] "token=abc123xyz".toList
        = "token=[CREDENTIAL:apikey]".toList :=
  ⟨fun _ _ => pairwise_sortByLenDesc _, by decide, by decide, by decide⟩

/-- C3 (amended): ownership bookkeeping requires both the command name and
the resource-id field.  After a successful dispatch the owned set is
updated by `trackContextOwnership`; a command that is neither
`create_context` nor `close_context` never changes the owned set (even if
its result carries a `contextId` field); a successful `create_context`
whose result carries `contextId` adds that id; a `close_context` whose
params carry `contextId` removes it; and when neither side carries the
field nothing changes. -/
theorem ownership_keyed_on_name_and_field
    (client : ClientConn) (id command : String) (params result : Json)
    (dispatch : String → Json → Except String Json)
    (hok : dispatch command params = .ok result) :
    ((wsHandleCommand client id command params dispatch).1.contextIds
        = trackContextOwnership client.contextIds command params result)
    ∧ (command ≠ "create_context" → command ≠ "close_context" →
        trackContextOwnership client.contextIds command params result
          = client.contextIds)
    ∧ (∀ cid, command = "create_context" → result.getField "contextId" = some cid →
        cid ∈ trackContextOwnership client.contextIds command params result)
    ∧ (∀ cid, command = "close_context" → params.getField "contextId" = some cid →
        cid ∉ trackContextOwnership client.contextIds command params result)
    ∧ (result.getField "contextId" = none → params.getField "contextId" = none →
        trackContextOwnership client.contextIds command params result
          = client.contextIds) := by
  refine ⟨by simp [wsHandleCommand, hok], ?_, ?_, ?_, ?_⟩
  · intro h1 h2
    simp [trackContextOwnership, h1, h2]
  · intro cid h1 h2
    subst h1
    simp only [trackContextOwnership, if_pos rfl, h2]
    by_cases hx : cid ∈ client.contextIds <;> simp [setAdd, hx]
  · intro cid h1 h2
    subst h1
    have hne : ¬("close_context" = "create_context") := by decide
    simp only [trackContextOwnership, if_neg hne, if_pos rfl, h2]
    simp [setRemove, List.mem_filter]
  · intro h1 h2
    by_cases hc : command = "create_context"
    · simp [trackContextOwnership, hc, h1]
    · by_cases hc' : command = "close_context"
      · simp [trackContextOwnership, hc, hc', h2]
      · simp [trackContextOwnership, hc, hc']

/-- Witness for C3's amended theorem at concrete inputs: a successful
`create_context` returning context id `c1` adds it to an empty owned
set. -/
theorem ownership_keyed_on_name_and_field_witness :
    ((fun (_ : String) (_ : Json) => Except.ok (ε := String)
        (Json.obj [("contextId", Json.str "c1")])) "create_context" (Json.obj [])
      = .ok (Json.obj [("contextId", Json.str "c1")]))
    ∧ (((wsHandleCommand ⟨true, []⟩ "1" "create_context" (Json.obj [])
          (fun _ _ => .ok (Json.obj [("contextId", Json.str "c1")]))).1.contextIds
        = trackContextOwnership [] "create_context" (Json.obj [])
            (Json.obj [("contextId", Json.str "c1")]))
      ∧ ("create_context" ≠ "create_context" → "create_context" ≠ "close_context" →
          trackContextOwnership [] "create_context" (Json.obj [])
              (Json.obj [("contextId", Json.str "c1")]) = [])
      ∧ (∀ cid, "create_context" = "create_context" →
          (Json.obj [("contextId", Json.str "c1")]).getField "contextId" = some cid →
          cid ∈ trackContextOwnership [] "create_context" (Json.obj [])
              (Json.obj [("contextId", Json.str "c1")]))
      ∧ (∀ cid, "create_context" = "close_context" →
          (Json.obj []).getField "contextId" = some cid →
          cid ∉ trackContextOwnership [] "create_context" (Json.obj [])
              (Json.obj [("contextId", Json.str "c1")]))
      ∧ ((Json.obj [("contextId", Json.str "c1")]).getField "contextId" = none →
          (Json.obj []).getField "contextId" = none →
          trackContextOwnership [] "create_context" (Json.obj [])
              (Json.obj [("contextId", Json.str "c1")]) = [])) :=
  ⟨rfl, ownership_keyed_on_name_and_field ⟨true, []⟩ "1" "create_context"
    (Json.obj []) (Json.obj [("contextId", Json.str "c1")]) _ rfl⟩

/-- Counterexample to C3 as stated: a successful dispatch of `navigate`
whose result object does carry a `contextId` field adds nothing to the
connection's owned set — bookkeeping is keyed on the command name, not
merely on the presence of a resource-id field in the result. -/
theorem ownership_field_only_counterexample :
    ((Json.obj [("contextId", Json.str "c1")]).hasField "contextId" = true)
    ∧ ((wsHandleCommand ⟨true, []⟩ "7" "navigate" (Json.obj [])
        (fun _ _ => .ok (Json.obj [("contextId", Json.str "c1")]))).2
          = .response "7" (Json.obj [("contextId", Json.str "c1")]))
    ∧ ((wsHandleCommand ⟨true, []⟩ "7" "navigate" (Json.obj [])
        (fun _ _ => .ok (Json.obj [("contextId", Json.str "c1")]))).1.contextIds
          = []) := by
  refine ⟨rfl, rfl, rfl⟩

/-- C4: a command received on an unauthenticated connection is answered
with a single `NOT_AUTHENTICATED` error, no close is initiated, the
connection record (including its owned resource ids) is returned
unchanged, and the outcome is the same for every dispatch function — no
dispatch to the command handler takes place. -/
theorem command_before_auth_no_dispatch
    (authToken : String) (client : ClientConn) (id command : String) (params : Json)
    (dispatch : String → Json → Except String Json)
    (h : client.authenticated = false) :
    wsHandleMessage authToken client (.command id command params) dispatch
      = (client, [.error "unknown" "NOT_AUTHENTICATED" "Must authenticate first"],
          none) := by
  simp [wsHandleMessage, h]

/-- Witness for C4 at a fresh connection and a concrete command. -/
theorem command_before_auth_no_dispatch_witness :
    ClientConn.init.authenticated = false
    ∧ wsHandleMessage "tok" ClientConn.init
        (.command "9" "navigate" (Json.obj [("url", Json.str "x")]))
        (fun _ _ => .ok Json.null)
      = (ClientConn.init,
          [.error "unknown" "NOT_AUTHENTICATED" "Must authenticate first"], none) :=
  ⟨rfl, command_before_auth_no_dispatch "tok" ClientConn.init "9" "navigate"
    (Json.obj [("url", Json.str "x")]) (fun _ _ => .ok Json.null) rfl⟩

/-- C5: when a channel closes while its connection record still owns `n`
context ids, exactly one best-effort `close_context` dispatch is issued
per remaining id — one dispatch per id, in order, whatever the command
handler's outcomes are — and the connection record is gone from the
client map afterwards. -/
theorem gate_close_cleanup
    (clients : List (String × ClientConn)) (ch : String) (client : ClientConn)
    (dispatch : String → Json → Except String Json)
    (h : assocGet ch clients = some client) :
    ((wsOnClose clients ch dispatch).2.length = client.contextIds.length)
    ∧ ((wsOnClose clients ch dispatch).2.map (fun d => (d.command, d.params))
        = client.contextIds.map (fun cid =>
            ("close_context", Json.obj [("contextId", cid)])))
    ∧ assocGet ch (wsOnClose clients ch dispatch).1 = none := by
  unfold wsOnClose
  refine ⟨?_, ?_, ?_⟩
  · simp [h]
  · simp [h]
  · simpa using assocGet_assocDel_self ch clients

/-- Witness for C5: a connection owning two contexts whose cleanup
dispatches all fail still issues exactly two `close_context` dispatches,
one per owned id, and its record is discarded. -/
theorem gate_close_cleanup_witness :
    (assocGet "ws1" [("ws1", ClientConn.mk true [Json.str "c1", Json.str "c2"])]
        = some (ClientConn.mk true [Json.str "c1", Json.str "c2"]))
    ∧ (((wsOnClose [("ws1", ClientConn.mk true [Json.str "c1", Json.str "c2"])] "ws1"
          (fun _ _ => .error "boom")).2.length
        = (ClientConn.mk true [Json.str "c1", Json.str "c2"]).contextIds.length)
      ∧ ((wsOnClose [("ws1", ClientConn.mk true [Json.str "c1", Json.str "c2"])] "ws1"
          (fun _ _ => .error "boom")).2.map (fun d => (d.command, d.params))
        = (ClientConn.mk true [Json.str "c1", Json.str "c2"]).contextIds.map
            (fun cid => ("close_context", Json.obj [("contextId", cid)])))
      ∧ assocGet "ws1"
          (wsOnClose [("ws1", ClientConn.mk true [Json.str "c1", Json.str "c2"])] "ws1"
            (fun _ _ => .error "boom")).1 = none) :=
  ⟨rfl, gate_close_cleanup [("ws1", ClientConn.mk true [Json.str "c1", Json.str "c2"])]
    "ws1" (ClientConn.mk true [Json.str "c1", Json.str "c2"])
    (fun _ _ => .error "boom") rfl⟩

/-- C8 (amended): replies produced by the command path (`response` on
success, `COMMAND_FAILED` error on failure) echo the command's
correlation id, exactly one reply per command; but the error replies for
unparseable frames and for commands received before authentication carry
the fixed placeholder id `unknown`, not the offending command's id. -/
theorem reply_echoes_command_id
    (authToken : String) (client : ClientConn) (id command : String) (params : Json)
    (dispatch : String → Json → Except String Json) :
    ((wsHandleCommand client id command params dispatch).2.msgId = some id)
    ∧ (client.authenticated = true →
        (wsHandleMessage authToken client (.command id command params) dispatch).2.1
          = [(wsHandleCommand client id command params dispatch).2])
    ∧ (client.authenticated = false →
        (wsHandleMessage authToken client (.command id command params) dispatch).2.1
          = [.error "unknown" "NOT_AUTHENTICATED" "Must authenticate first"])
    ∧ ((wsOnMessage authToken client none dispatch).2.1
        = [.error "unknown" "PARSE_ERROR" "Failed to parse message"]) := by
  refine ⟨?_, ?_, ?_, rfl⟩
  · cases hd : dispatch command params <;>
      simp [wsHandleCommand, hd, ServerMsg.msgId]
  · intro h
    simp [wsHandleMessage, h]
  · intro h
    simp [wsHandleMessage, h]

/-- Witness for C8's amended theorem on an authenticated connection with a
failing dispatch: the single error reply carries the command's id. -/
theorem reply_echoes_command_id_witness :
    (((wsHandleCommand ⟨true, []⟩ "id-1" "navigate" (Json.obj [])
        (fun _ _ => .error "nope")).2.msgId = some "id-1"))
    ∧ ((ClientConn.mk true []).authenticated = true →
        (wsHandleMessage "tok" ⟨true, []⟩ (.command "id-1" "navigate" (Json.obj []))
          (fun _ _ => .error "nope")).2.1
          = [(wsHandleCommand ⟨true, []⟩ "id-1" "navigate" (Json.obj [])
              (fun _ _ => .error "nope")).2])
    ∧ ((ClientConn.mk true []).authenticated = false →
        (wsHandleMessage "tok" ⟨true, []⟩ (.command "id-1" "navigate" (Json.obj []))
          (fun _ _ => .error "nope")).2.1
          = [.error "unknown" "NOT_AUTHENTICATED" "Must authenticate first"])
    ∧ ((wsOnMessage "tok" ⟨true, []⟩ none (fun _ _ => .error "nope")).2.1
        = [.error "unknown" "PARSE_ERROR" "Failed to parse message"]) :=
  reply_echoes_command_id "tok" ⟨true, []⟩ "id-1" "navigate" (Json.obj [])
    (fun _ _ => .error "nope")

/-- Counterexample to C8 as stated: a command with correlation id `42`
sent before authentication is answered by an error whose id is the
placeholder `unknown`, which does not echo `42`. -/
theorem reply_id_echo_counterexample :
    ((wsOnMessage "tok" ClientConn.init
        (some (.command "42" "navigate" (Json.obj [])))
        (fun _ _ => .ok Json.null)).2.1
      = [ServerMsg.error "unknown" "NOT_AUTHENTICATED" "Must authenticate first"])
    ∧ (ServerMsg.error "unknown" "NOT_AUTHENTICATED"
        "Must authenticate first").msgId ≠ some "42" := by
  refine ⟨rfl, by decide⟩

/-- C6: `createSession` is atomic with respect to the registry.  A failed
`connect()` or a failed `create_context` command is returned as that very
failure with the session map untouched — no partial session is ever
registered — and the session is added exactly when both steps succeed. -/
theorem createSession_atomic
    (st : SMState) (sid ep : String) (now : Nat)
    (cr : Except String Unit) (xr : Except String CreateCtxResult) :
    (∀ e, cr = .error e → smCreateSession st sid ep now cr xr = (st, .error e))
    ∧ (∀ e, cr = .ok () → xr = .error e →
        smCreateSession st sid ep now cr xr = (st, .error e))
    ∧ (∀ r, cr = .ok () → xr = .ok r →
        smCreateSession st sid ep now cr xr
          = (⟨assocSet sid ⟨sid, ep, r.contextId, r.browserType, now, r.location⟩
                st.sessions⟩,
              .ok (sid, ep, r.browserType, r.location))) := by
  refine ⟨?_, ?_, ?_⟩
  · rintro e rfl
    rfl
  · rintro e rfl rfl
    rfl
  · rintro r rfl rfl
    rfl

/-- Witness for C6 at concrete inputs: a failing creation command leaves a
one-session registry exactly as it was. -/
theorem createSession_atomic_witness :
    (∀ e, (Except.error (ε := String) (α := Unit) "connect timeout") = .error e →
      smCreateSession ⟨[]⟩ "s1" "wss://w" 5 (.error "connect timeout")
          (.error "boom")
        = (⟨[]⟩, .error e))
    ∧ (∀ e, (Except.error (ε := String) (α := Unit) "connect timeout") = .ok () →
        (Except.error (ε := String) (α := CreateCtxResult) "boom") = .error e →
        smCreateSession ⟨[]⟩ "s1" "wss://w" 5 (.error "connect timeout")
            (.error "boom")
          = (⟨[]⟩, .error e))
    ∧ (∀ r, (Except.error (ε := String) (α := Unit) "connect timeout") = .ok () →
        (Except.error (ε := String) (α := CreateCtxResult) "boom") = .ok r →
        smCreateSession ⟨[]⟩ "s1" "wss://w" 5 (.error "connect timeout")
            (.error "boom")
          = (⟨assocSet "s1" ⟨"s1", "wss://w", r.contextId, r.browserType, 5,
                r.location⟩ []⟩,
              .ok ("s1", "wss://w", r.browserType, r.location))) :=
  createSession_atomic ⟨[]⟩ "s1" "wss://w" 5 (.error "connect timeout") (.error "boom")

/-- C7: `closeSession` on an unknown id fails with the session-not-found
error and changes nothing; on a registered id it removes the session and
disconnects the stub unconditionally, issuing the best-effort
`close_context` dispatch, whatever that command's outcome `r` is; and
`createSession` immediately followed by `closeSession` leaves the session
map empty and the stub disconnected even when the remote close fails. -/
theorem closeSession_always_removes
    (st : SMState) (sid : String) (r : Except String Json) :
    (assocGet sid st.sessions = none →
      smCloseSession st sid r
        = ⟨st, .error ("Session " ++ sid ++ " not found"), none, false⟩)
    ∧ (∀ s, assocGet sid st.sessions = some s →
        smCloseSession st sid r
          = ⟨⟨assocDel sid st.sessions⟩, .ok (),
              some ("close_context", Json.obj [("contextId", Json.str s.contextId)]),
              true⟩
          ∧ assocGet sid (smCloseSession st sid r).state.sessions = none)
    ∧ (∀ (ep : String) (now : Nat) (res : CreateCtxResult) (e : String),
        (smCloseSession (smCreateSession ⟨[]⟩ sid ep now (.ok ()) (.ok res)).1 sid
            (.error e)).state.sessions = []
        ∧ (smCloseSession (smCreateSession ⟨[]⟩ sid ep now (.ok ()) (.ok res)).1 sid
            (.error e)).disconnected = true) := by
  refine ⟨?_, ?_, ?_⟩
  · intro h
    simp [smCloseSession, h]
  · intro s h
    refine ⟨by simp [smCloseSession, h], ?_⟩
    simp [smCloseSession, h, assocGet_assocDel_self]
  · intro ep now res e
    constructor
    · show (smCloseSession ⟨assocSet sid _ []⟩ sid (.error e)).state.sessions = []
      simp [smCloseSession, assocSet, assocGet, assocDel]
    · show (smCloseSession ⟨assocSet sid _ []⟩ sid (.error e)).disconnected = true
      simp [smCloseSession, assocSet, assocGet]

/-- Witness for C7 at concrete inputs: closing an unknown session fails,
and create-then-close with a failing remote close leaves the registry
empty and the stub disconnected. -/
theorem closeSession_always_removes_witness :
    (assocGet "s1" (SMState.mk []).sessions = none →
      smCloseSession ⟨[]⟩ "s1" (.error "boom")
        = ⟨⟨[]⟩, .error ("Session " ++ "s1" ++ " not found"), none, false⟩)
    ∧ (∀ s, assocGet "s1" (SMState.mk []).sessions = some s →
        smCloseSession ⟨[]⟩ "s1" (.error "boom")
          = ⟨⟨assocDel "s1" []⟩, .ok (),
              some ("close_context", Json.obj [("contextId", Json.str s.contextId)]),
              true⟩
          ∧ assocGet "s1" (smCloseSession ⟨[]⟩ "s1" (.error "boom")).state.sessions
              = none)
    ∧ (∀ (ep : String) (now : Nat) (res : CreateCtxResult) (e : String),
        (smCloseSession (smCreateSession ⟨[]⟩ "s1" ep now (.ok ()) (.ok res)).1 "s1"
            (.error e)).state.sessions = []
        ∧ (smCloseSession (smCreateSession ⟨[]⟩ "s1" ep now (.ok ()) (.ok res)).1 "s1"
            (.error e)).disconnected = true) :=
  closeSession_always_removes ⟨[]⟩ "s1" (.error "boom")

/-- C10: for a registered session, `sendCommand` forwards the command with
params into which the session's own stored context id has been spread:
the dispatched `contextId` equals the session's context id — any
caller-supplied `contextId` is overridden — and every other field of the
caller's params is looked up unchanged. -/
theorem sendCommand_injects_contextId
    (st : SMState) (sid command : String) (params : List (String × Json))
    (s : SessionRec) (h : assocGet sid st.sessions = some s) :
    (smSendCommand st sid command params
      = .ok (command, assocSet "contextId" (Json.str s.contextId) params))
    ∧ (assocGet "contextId" (assocSet "contextId" (Json.str s.contextId) params)
        = some (Json.str s.contextId))
    ∧ (∀ k, k ≠ "contextId" →
        assocGet k (assocSet "contextId" (Json.str s.contextId) params)
          = assocGet k params) := by
  refine ⟨by simp [smSendCommand, h], assocGet_assocSet_self _ _ _, ?_⟩
  intro k hk
  exact assocGet_assocSet_ne _ _ hk

/-- Witness for C10: a caller-supplied `contextId` is overridden by the
session's own, and the other field is preserved. -/
theorem sendCommand_injects_contextId_witness :
    (assocGet "s1" (SMState.mk [("s1",
        SessionRec.mk "s1" "wss://w" "ctx-9" "chromium" 0 Json.null)]).sessions
      = some (SessionRec.mk "s1" "wss://w" "ctx-9" "chromium" 0 Json.null))
    ∧ ((smSendCommand ⟨[("s1", SessionRec.mk "s1" "wss://w" "ctx-9" "chromium" 0
          Json.null)]⟩ "s1" "navigate"
          [("contextId", Json.str "evil"), ("url", Json.str "https://x")]
        = .ok ("navigate", assocSet "contextId" (Json.str "ctx-9")
            [("contextId", Json.str "evil"), ("url", Json.str "https://x")]))
      ∧ (assocGet "contextId" (assocSet "contextId" (Json.str "ctx-9")
            [("contextId", Json.str "evil"), ("url", Json.str "https://x")])
          = some (Json.str "ctx-9"))
      ∧ (∀ k, k ≠ "contextId" →
          assocGet k (assocSet "contextId" (Json.str "ctx-9")
              [("contextId", Json.str "evil"), ("url", Json.str "https://x")])
            = assocGet k
                [("contextId", Json.str "evil"), ("url", Json.str "https://x")])) :=
  ⟨rfl, sendCommand_injects_contextId
    ⟨[("s1", SessionRec.mk "s1" "wss://w" "ctx-9" "chromium" 0 Json.null)]⟩
    "s1" "navigate" [("contextId", Json.str "evil"), ("url", Json.str "https://x")]
    (SessionRec.mk "s1" "wss://w" "ctx-9" "chromium" 0 Json.null) rfl⟩

/-- C9 (amended): credential lookup gives the environment source
precedence over the file store, but the case/format normalization
(uppercasing, dash-to-underscore) is applied only when forming the
environment-variable name: normalization-equivalent name variants resolve
identically against the environment source, while the file store is
consulted under the literal name only. -/
theorem credGet_env_precedence_normalization
    (env fileCreds : List (String × String)) (name : String) :
    (∀ v, credGet.getStr (toEnvVarName name) env = some v →
      credGet env fileCreds name = some v)
    ∧ (credGet.getStr (toEnvVarName name) env = none →
      credGet env fileCreds name = credGet.getStr name fileCreds)
    ∧ (∀ name', toEnvVarName name' = toEnvVarName name →
      credGet env [] name' = credGet env [] name) := by
  refine ⟨?_, ?_, ?_⟩
  · intro v hv
    simp [credGet, hv]
  · intro hv
    simp [credGet, hv]
  · intro name' heq
    unfold credGet
    rw [heq]
    cases credGet.getStr (toEnvVarName name) env <;> rfl

/-- Witness for C9's amended theorem at a name present in both sources:
the environment value wins. -/
theorem credGet_env_precedence_normalization_witness :
    (∀ v, credGet.getStr (toEnvVarName "api_key")
        [("MCPROXY_CREDENTIAL_API_KEY", "ev1234")] = some v →
      credGet [("MCPROXY_CREDENTIAL_API_KEY", "ev1234")] [("api_key", "fv1234")]
          "api_key" = some v)
    ∧ (credGet.getStr (toEnvVarName "api_key")
        [("MCPROXY_CREDENTIAL_API_KEY", "ev1234")] = none →
      credGet [("MCPROXY_CREDENTIAL_API_KEY", "ev1234")] [("api_key", "fv1234")]
          "api_key"
        = credGet.getStr "api_key" [("api_key", "fv1234")])
    ∧ (∀ name', toEnvVarName name' = toEnvVarName "api_key" →
      credGet [("MCPROXY_CREDENTIAL_API_KEY", "ev1234")] [] name'
        = credGet [("MCPROXY_CREDENTIAL_API_KEY", "ev1234")] [] "api_key") :=
  credGet_env_precedence_normalization [("MCPROXY_CREDENTIAL_API_KEY", "ev1234")]
    [("api_key", "fv1234")] "api_key"

/-- Counterexample to C9 as stated: `github-password` and
`github_password` are equivalent under the claimed normalization (they
normalize to the same environment-variable name), yet against a file
store holding `github_password` the first resolves to nothing while the
second resolves to the credential — the file source is not normalized. -/
theorem credGet_normalization_counterexample :
    (toEnvVarName "github-password" = toEnvVarName "github_password")
    ∧ (credGet [] [("github_password", "secret1234")] "github_password"
        = some "secret1234")
    ∧ (credGet [] [("github_password", "secret1234")] "github-password" = none) :=
  ⟨by decide, by decide, by decide⟩
